import Mathlib

/-!
# Verification of the election-2025-donor-analysis core pipeline

Shallow embedding of the donor identity resolution and aggregation logic of
the repository (aggregate-by-party.py, check-for-duplicate-donors.py,
dedupe-donor-output.py, compute-party-splits.py).

Dollar amounts, handled as Python floats in the source, are modelled as
rationals (ℚ); Python's `float(...)` string conversion is modelled as an
exact decimal/exponent parser returning `Option ℚ` (`none` for unparsable
text; the non-finite spellings "inf"/"nan" are outside the model).
Python dicts are modelled as insertion-ordered association lists with
in-place replacement on key update, and Python sets of strings as
duplicate-free lists.  String primitives (strip, split, substring search)
are modelled by structural recursion over character lists so that every
definition evaluates on concrete inputs.
-/

/-- The whitespace characters stripped by Python `str.strip()`. -/
def isWsChar (c : Char) : Bool :=
  c == ' ' || c == '\t' || c == '\n' || c == '\r'

/-- Strip leading and trailing whitespace from a character list. -/
def trimL (cs : List Char) : List Char :=
  ((cs.dropWhile isWsChar).reverse.dropWhile isWsChar).reverse

/-- Python `s.strip()`. -/
def strip (s : String) : String :=
  String.mk (trimL s.toList)

/-- Split a character list on a separator character (Python `s.split(sep)`):
the result is the list of (possibly empty) pieces between separators. -/
def splitOnC (sep : Char) : List Char → List (List Char)
  | [] => [[]]
  | c :: rest =>
      match splitOnC sep rest with
      | [] => if c = sep then [[], []] else [[c]]
      | h :: t => if c = sep then [] :: h :: t else (c :: h) :: t

/-- Value of a list of ASCII decimal digit characters, most significant first. -/
def natOfDigits (cs : List Char) : Nat :=
  cs.foldl (fun n c => 10 * n + (c.toNat - 48)) 0

/-- All characters are ASCII decimal digits. -/
def allDigits (cs : List Char) : Bool :=
  cs.all (fun c => c.isDigit)

/-- Unsigned decimal mantissa as accepted by Python `float`: digits with at
most one dot and at least one digit ("12", "1.5", ".5", "5."). -/
def parseMantissaL? (cs : List Char) : Option ℚ :=
  match splitOnC '.' cs with
  | [a] =>
      if !a.isEmpty && allDigits a then some (mkRat (natOfDigits a) 1) else none
  | [a, b] =>
      if !(a.isEmpty && b.isEmpty) && allDigits a && allDigits b then
        some (mkRat (natOfDigits a * 10 ^ b.length + natOfDigits b) (10 ^ b.length))
      else none
  | _ => none

/-- Signed decimal exponent as accepted by Python `float` after `e`/`E`. -/
def parseExpL? (cs : List Char) : Option ℤ :=
  let (neg, body) : Bool × List Char :=
    match cs with
    | '-' :: rest => (true, rest)
    | '+' :: rest => (false, rest)
    | _ => (false, cs)
  if !body.isEmpty && allDigits body then
    some (if neg then -(natOfDigits body : ℤ) else (natOfDigits body : ℤ))
  else none

/-- `q * 10 ^ e` computed on the numerator/denominator pair. -/
def applyExp (q : ℚ) (e : ℤ) : ℚ :=
  if 0 ≤ e then mkRat (q.num * 10 ^ e.toNat) q.den
  else mkRat q.num (q.den * 10 ^ (-e).toNat)

/-- Model of Python `float(s)` on finite decimal text: optional surrounding
whitespace, optional sign, decimal mantissa, optional `e`/`E` exponent.
Returns `none` where Python raises `ValueError` (and on the non-finite
spellings, which are outside this rational model). -/
def pyFloatL? (cs0 : List Char) : Option ℚ :=
  let cs := trimL cs0
  let (neg, body) : Bool × List Char :=
    match cs with
    | '-' :: rest => (true, rest)
    | '+' :: rest => (false, rest)
    | _ => (false, cs)
  let body := body.map (fun c => if c = 'E' then 'e' else c)
  let res : Option ℚ :=
    match splitOnC 'e' body with
    | [m] => parseMantissaL? m
    | [m, ex] =>
        match parseMantissaL? m, parseExpL? ex with
        | some q, some e => some (applyExp q e)
        | _, _ => none
    | _ => none
  res.map (fun q => if neg then -q else q)

/-- Python `float(s)` on a string. -/
def pyFloat? (s : String) : Option ℚ :=
  pyFloatL? s.toList

/-- Python `str(x)` on an `Optional[str]`: `None` prints as `"None"`. -/
def pyStr (o : Option String) : String :=
  match o with
  | none => "None"
  | some t => t

/-- Keep only the characters satisfying `p` (Python
`"".join(ch for ch in v if p(ch))`, or single-character deletions such as
`s.replace(",", "")`). -/
def filterChars (p : Char → Bool) (s : String) : String :=
  String.mk (s.toList.filter p)

/-- Association-list lookup (Python `d.get(k)` / `d[k]`). -/
def lookupA {α β : Type} [DecidableEq α] : List (α × β) → α → Option β
  | [], _ => none
  | (k', v) :: rest, k => if k' = k then some v else lookupA rest k

/-- Association-list update with Python dict semantics: replace in place when
the key is present, append otherwise. -/
def updateAssoc {α β : Type} [DecidableEq α] : List (α × β) → α → β → List (α × β)
  | [], k, v => [(k, v)]
  | (k', v') :: rest, k, v =>
      if k' = k then (k, v) :: rest else (k', v') :: updateAssoc rest k v

/-- Python `set.add` on a duplicate-free list model of a set. -/
def insertIfAbsent {α : Type} [DecidableEq α] (x : α) (l : List α) : List α :=
  if x ∈ l then l else l ++ [x]

/-- Round-half-even of the fraction `n / d` (with `d > 0`) to an integer,
computed with integer arithmetic: Python's float-formatting tie rule. -/
def rheDiv (n d : ℤ) : ℤ :=
  let f := n.fdiv d
  let r2 := 2 * (n - f * d)
  if r2 < d then f
  else if d < r2 then f + 1
  else if f % 2 = 0 then f else f + 1

/-- Left-pad a numeral string with zeros to two characters. -/
def padTwo (m : Nat) : String :=
  if m < 10 then "0" ++ toString m else toString m

/-- Model of Python `f"{x:.2f}"` on a rational: sign, then the half-even
rounding of `|x|` to cents rendered with exactly two fractional digits. -/
def formatTwoDecimals (q : ℚ) : String :=
  let sign := if q < 0 then "-" else ""
  let n := (rheDiv (q.num.natAbs * 100) q.den).toNat
  sign ++ toString (n / 100) ++ "." ++ padTwo (n % 100)

namespace AggregateByParty

/-- aggregate-by-party.py `parse_float`: stringify, strip commas, convert to
float; any failure yields `0.0`. -/
def parse_float (s : Option String) : ℚ :=
  (pyFloat? (filterChars (fun c => !(c == ',')) (pyStr s))).getD 0

/-- One input CSV row as read by `csv.DictReader` (absent columns are `none`). -/
structure Row where
  eid : Option String
  entityName : Option String
  firstName : Option String
  middleInitial : Option String
  lastName : Option String
  city : Option String
  state : Option String
  donationsToCampaign : Option String
deriving DecidableEq

/-- `(row.get(field) or "").strip()`. -/
def getStr (o : Option String) : String :=
  strip (o.getD "")

/-- Canonical identity key: `(entityName, first, middle, last, city, state)`,
each trimmed. -/
def GroupKey := String × String × String × String × String × String
deriving DecidableEq

/-- aggregate-by-party.py lines 99-107: the canonical key built from a row. -/
def canonKey (r : Row) : GroupKey :=
  (getStr r.entityName, getStr r.firstName, getStr r.middleInitial,
   getStr r.lastName, getStr r.city, getStr r.state)

/-- `re.sub(r"[^0-9.-]", "", t)`: keep digits, dot, minus. -/
def cleanCurrency (t : String) : String :=
  filterChars (fun c => c.isDigit || c == '.' || c == '-') t

/-- aggregate-by-party.py lines 110-114: parse `donationsToCampaign` text,
`0.0` when empty or unparsable after stripping to digits/dot/minus. -/
def parseDonations (t : String) : ℚ :=
  if t = "" then 0 else (pyFloat? (cleanCurrency t)).getD 0

/-- The per-group record held in `group_info`. -/
structure GroupInfo where
  entityName : String
  first : String
  middle : String
  last : String
  city : String
  state : String
  donationsToCampaign : ℚ
  eids : List String
deriving DecidableEq

/-- The fresh group record created on first sighting of a canonical key
(aggregate-by-party.py lines 115-124). -/
def freshGroup (r : Row) (eid : String) : GroupInfo :=
  { entityName := getStr r.entityName
    first := getStr r.firstName
    middle := getStr r.middleInitial
    last := getStr r.lastName
    city := getStr r.city
    state := getStr r.state
    donationsToCampaign := parseDonations (getStr r.donationsToCampaign)
    eids := [eid] }

/-- The Donor Group Index state: `eid_to_group` and `group_info`. -/
structure IndexState where
  eidToGroup : List (String × GroupKey)
  groupInfo : List (GroupKey × GroupInfo)
deriving DecidableEq

/-- The empty index built at the start of each candidate file. -/
def emptyIndex : IndexState :=
  { eidToGroup := [], groupInfo := [] }

/-- aggregate-by-party.py lines 95-126: ingest one row into the index.
Rows with an empty (trimmed) `eid` are skipped; otherwise `eid_to_group[eid]`
is set to the row's canonical key, and `group_info` either gains a fresh
group (display fields, parsed self-reported total, identifier set `{eid}`)
or, when the key is already present, only has `eid` added to the existing
group's identifier set. -/
def ingestRow (st : IndexState) (r : Row) : IndexState :=
  let eid := getStr r.eid
  if eid = "" then st
  else
    let key := canonKey r
    let e2g := updateAssoc st.eidToGroup eid key
    match lookupA st.groupInfo key with
    | none =>
        { eidToGroup := e2g, groupInfo := st.groupInfo ++ [(key, freshGroup r eid)] }
    | some gi =>
        { eidToGroup := e2g
          groupInfo := updateAssoc st.groupInfo key { gi with eids := insertIfAbsent eid gi.eids } }

/-- The party accumulator `party_map` as a total map from (party, group key)
to the accumulated amount; `defaultdict(float)` starts every cell at `0.0`. -/
def PartyMap := String → GroupKey → ℚ

/-- The all-zero accumulator. -/
def emptyPartyMap : PartyMap := fun _ _ => 0

/-- Point update of one accumulator cell. -/
def pmUpdate (pm : PartyMap) (p : String) (k : GroupKey) (v : ℚ) : PartyMap :=
  fun p' k' => if p' = p ∧ k' = k then v else pm p' k'

/-- aggregate-by-party.py lines 141-149: record one party observation.
Empty/absent party or non-positive parsed amount discards the observation;
an identifier missing from `eid_to_group` discards it; otherwise the amount
is added to the cell `(party, group_key)`. -/
def recordObs (e2g : List (String × GroupKey)) (pm : PartyMap)
    (eid : String) (party : Option String) (amtText : Option String) : PartyMap :=
  let amt := parse_float amtText
  if party = none ∨ party = some "" ∨ amt ≤ 0 then pm
  else
    match lookupA e2g eid with
    | none => pm
    | some key =>
        let p := party.getD ""
        pmUpdate pm p key (pm p key + amt)

/-- aggregate-by-party.py lines 166-173: a dollar value is emitted as
`str(int(v))` when `v.is_integer()`, else as `f"{v:.2f}"`. -/
def formatAmount (q : ℚ) : String :=
  if q.den = 1 then toString q.num else formatTwoDecimals q

end AggregateByParty

/-- List-based lowercase conversion (Python `s.lower()`, ASCII). -/
def strLower (s : String) : String :=
  String.mk (s.toList.map Char.toLower)

/-- Does the first list start with the second one? -/
def startsWithL : List Char → List Char → Bool
  | _, [] => true
  | [], _ :: _ => false
  | c :: cs, n :: ns => c == n && startsWithL cs ns

/-- Substring occurrence on character lists (Python `needle in hay`). -/
def containsL : List Char → List Char → Bool
  | [], needle => needle.isEmpty
  | c :: cs, needle => startsWithL (c :: cs) needle || containsL cs needle

/-- Python `needle in hay` on strings. -/
def strContains (hay needle : String) : Bool :=
  containsL hay.toList needle.toList

/-- Lexicographic codepoint comparison on character lists. -/
def strLtL : List Char → List Char → Bool
  | [], [] => false
  | [], _ :: _ => true
  | _ :: _, [] => false
  | a :: as, b :: bs =>
      if a.toNat < b.toNat then true
      else if b.toNat < a.toNat then false
      else strLtL as bs

/-- Python `a < b` on strings (codepoint lexicographic). -/
def strLtB (a b : String) : Bool :=
  strLtL a.toList b.toList

/-- Insertion of a string into a sorted list. -/
def insertSorted (x : String) : List String → List String
  | [] => [x]
  | y :: ys => if strLtB x y then x :: y :: ys else y :: insertSorted x ys

/-- Insertion sort by codepoint order (Python `sorted` on strings). -/
def sortStrings (l : List String) : List String :=
  l.foldr insertSorted []

/-- Join a list of strings with a separator (Python `sep.join(xs)`). -/
def joinWith (sep : String) : List String → String
  | [] => ""
  | [x] => x
  | x :: y :: ys => x ++ sep ++ joinWith sep (y :: ys)

/-- The whitespace-separated words of a character list (Python `s.split()`),
accumulating the current word in reverse. -/
def wordsAux : List Char → List Char → List (List Char)
  | [], acc => if acc.isEmpty then [] else [acc.reverse]
  | c :: cs, acc =>
      if isWsChar c then
        (if acc.isEmpty then wordsAux cs [] else acc.reverse :: wordsAux cs [])
      else wordsAux cs (c :: acc)

/-- Python `s.split()` with no argument: split on whitespace runs, no empties. -/
def pySplitWs (s : String) : List String :=
  (wordsAux s.toList []).map String.mk

/-- Python truthiness-based `a or b` on optional strings: `a` when it is a
non-empty string, otherwise `b` unchanged. -/
def pyOr (a b : Option String) : Option String :=
  match a with
  | some s => if s = "" then b else some s
  | none => b

/-- A CSV row as a `csv.DictReader` dict: ordered field/value pairs. -/
abbrev DRow := List (String × String)

/-- `row.get(f)`. -/
def rget (row : DRow) (f : String) : Option String :=
  lookupA row f

/-- Left-pad a numeral string with zeros to `k` characters. -/
def padZeros (s : String) (k : Nat) : String :=
  String.mk (List.replicate (k - s.length) '0') ++ s

/-- Model of Python `str(x)` on a non-integral float: the shortest exact
decimal expansion (sign, integer part, dot, fractional digits with no
trailing zero).  Faithful to CPython's shortest-roundtrip repr on the
decimal values this pipeline produces; rationals needing more than 40
fractional digits are outside the model and rendered as a fraction. -/
def strFloat (q : ℚ) : String :=
  match (List.range 40).find? (fun k => q.den ∣ 10 ^ (k + 1)) with
  | some k =>
      let K := k + 1
      let scaled := q.num.natAbs * 10 ^ K / q.den
      (if q < 0 then "-" else "") ++ toString (scaled / 10 ^ K) ++ "." ++
        padZeros (toString (scaled % 10 ^ K)) K
  | none => toString q.num ++ "/" ++ toString q.den

namespace ComputeSplits

/-- compute-party-splits.py lines 20-29 (duplicated in dedupe-donor-output.py
lines 8-16): case-insensitive substring rules in fixed priority order. -/
def map_party_stem_to_category (stem : String) : String :=
  let s := strLower stem
  if strContains s "republic" then "republican"
  else if strContains s "democ" then "democratic"
  else if strContains s "non" || strContains s "no-party" || strContains s "nonpartisan" then
    "nonpartisan"
  else "thirdParty"

/-- Per-category dollar sums for one candidate, initialised to 0.0
(compute-party-splits.py line 122). -/
structure CatSums where
  republican : ℚ
  democratic : ℚ
  thirdParty : ℚ
  nonpartisan : ℚ
deriving DecidableEq

/-- The all-zero category sums. -/
def emptySums : CatSums :=
  ⟨0, 0, 0, 0⟩

/-- `sums[cat] = sums.get(cat, 0.0) + amt` for a category produced by
`map_party_stem_to_category`. -/
def addCat (s : CatSums) (cat : String) (amt : ℚ) : CatSums :=
  if cat = "republican" then { s with republican := s.republican + amt }
  else if cat = "democratic" then { s with democratic := s.democratic + amt }
  else if cat = "nonpartisan" then { s with nonpartisan := s.nonpartisan + amt }
  else { s with thirdParty := s.thirdParty + amt }

/-- compute-party-splits.py lines 122-129: fold each (file stem, file sum)
pair into the per-category sums. -/
def accumSums (files : List (String × ℚ)) : CatSums :=
  files.foldl (fun s fp => addCat s (map_party_stem_to_category fp.1) fp.2) emptySums

/-- `total = sum(sums.values())`. -/
def sumsTotal (s : CatSums) : ℚ :=
  s.republican + s.democratic + s.thirdParty + s.nonpartisan

/-- compute-party-splits.py lines 131-135: percentages per category, all
forced to 0.0 when the grand total is non-positive (no division happens). -/
def computePercents (s : CatSums) : CatSums :=
  if sumsTotal s ≤ 0 then ⟨0, 0, 0, 0⟩
  else
    ⟨s.republican / sumsTotal s * 100, s.democratic / sumsTotal s * 100,
     s.thirdParty / sumsTotal s * 100, s.nonpartisan / sumsTotal s * 100⟩

/-- compute-party-splits.py line 95: the first-attempt strip of
`sum_preferred_amounts_in_csv`: keep digits, dot, minus. -/
def sppFirstClean (v : String) : String :=
  filterChars (fun c => c.isDigit || c == '-' || c == '.') v

/-- compute-party-splits.py line 100: the fallback strip of
`sum_preferred_amounts_in_csv`: keep digits, dot, minus, apostrophe. -/
def sppFallbackClean (v : String) : String :=
  filterChars (fun c => c.isDigit || c == '-' || c == '.' || c == Char.ofNat 39) v

/-- Following the spec's words for the 4.6 per-value parse (refinement
comparison target): the strip the spec says is attempted FIRST keeps
digits, dot, minus, and apostrophe. -/
def specFirstClean (v : String) : String :=
  filterChars (fun c => c.isDigit || c == '-' || c == '.' || c == Char.ofNat 39) v

/-- compute-party-splits.py lines 95-104: parse one non-empty cell value:
try `float` on the digits/dot/minus strip (empty strip means 0.0); on
failure retry on the digits/dot/minus/apostrophe strip; 0.0 when both fail. -/
def parsePreferredValue (v : String) : ℚ :=
  match (if sppFirstClean v = "" then some (0 : ℚ) else pyFloat? (sppFirstClean v)) with
  | some q => q
  | none =>
      (if sppFallbackClean v = "" then some (0 : ℚ) else pyFloat? (sppFallbackClean v)).getD 0

/-- compute-party-splits.py lines 90-105: total a column of cell values,
skipping empty (trimmed) cells; no value aborts the fold. -/
def sumPreferredValues (vals : List (Option String)) : ℚ :=
  vals.foldl
    (fun t o =>
      let v := strip (o.getD "")
      if v = "" then t else t + parsePreferredValue v) 0

end ComputeSplits

namespace CheckDup

/-- check-for-duplicate-donors.py lines 12-24: field-name union across files
in first-seen order; as in the source, only each file's first row is
consulted (`break` after one row). -/
def normalize_fields_union (files : List (String × List DRow)) : List String :=
  files.foldl
    (fun acc fr =>
      match fr.2 with
      | [] => acc
      | r :: _ => r.foldl (fun acc2 kv => if kv.1 ∈ acc2 then acc2 else acc2 ++ [kv.1]) acc)
    []

/-- A duplicate-detector match key: (field, trimmed value) pairs. -/
abbrev MatchKey := List (String × String)

/-- check-for-duplicate-donors.py lines 27-30: tuple of (field, trimmed
value) over the match fields, excluding any field whose lowercase name is
"amount". -/
def make_match_key (row : DRow) (match_fields : List String) : MatchKey :=
  (match_fields.filter (fun f => strLower f ≠ "amount")).map
    (fun f => (f, strip ((rget row f).getD "")))

/-- check-for-duplicate-donors.py lines 33-40. -/
def display_name_from_row (row : DRow) : String :=
  let first := strip ((rget row "firstName").getD "")
  let last := strip ((rget row "lastName").getD "")
  if first = "" && last = "" then strip ((rget row "entityName").getD "")
  else strip (first ++ " " ++ last)

/-- check-for-duplicate-donors.py lines 43-54. -/
def donations_value_from_row (row : DRow) : String :=
  let v := strip ((rget row "donationsToCampaign").getD "")
  if v = "" then "$0"
  else
    let cleaned := filterChars (fun c => c.isDigit || c == '-' || c == '.') v
    match (if cleaned = "" then none else pyFloat? cleaned) with
    | none => v
    | some f => if f.den = 1 then "$" ++ toString f.num else "$" ++ formatTwoDecimals f

/-- `Path(name).stem`: the file name minus its last extension. -/
def stemOf (name : String) : String :=
  match splitOnC '.' name.toList with
  | [] => name
  | [_] => name
  | parts => String.mk (List.intercalate ['.'] parts.dropLast)

/-- check-for-duplicate-donors.py lines 71-80: one pass over all files' rows
building `key_to_files` (key → de-duplicated file-name set, insertion
ordered) and `key_to_row` (key → first-seen representative row). -/
def scanFiles (files : List (String × List DRow)) (fields : List String) :
    List (MatchKey × List String) × List (MatchKey × DRow) :=
  files.foldl
    (fun acc fr =>
      fr.2.foldl
        (fun acc2 r =>
          let key := make_match_key r fields
          let k2f :=
            match lookupA acc2.1 key with
            | none => acc2.1 ++ [(key, [fr.1])]
            | some fl => updateAssoc acc2.1 key (insertIfAbsent fr.1 fl)
          let k2r :=
            match lookupA acc2.2 key with
            | none => acc2.2 ++ [(key, r)]
            | some _ => acc2.2
          (k2f, k2r))
        acc)
    ([], [])

/-- check-for-duplicate-donors.py lines 57-91 (`process_candidate_dir`
without the I/O): for every match key appearing in more than one file, one
record (display name, formatted self-reported total, slash-joined sorted
file stems), in key insertion order. -/
def find_duplicates (files : List (String × List DRow)) : List (String × String × String) :=
  let fields := normalize_fields_union files
  let scanned := scanFiles files fields
  (scanned.1.filter (fun kv => 1 < kv.2.length)).map
    (fun kv =>
      let rep := (lookupA scanned.2 kv.1).getD []
      (display_name_from_row rep, donations_value_from_row rep,
       joinWith "/" (sortStrings (kv.2.map stemOf))))

end CheckDup

namespace DedupeOutput

/-- dedupe-donor-output.py lines 8-16: identical to the splitter's
`map_party_stem_to_category`. -/
def map_party_stem_to_category (stem : String) : String :=
  let s := strLower stem
  if strContains s "republic" then "republican"
  else if strContains s "democ" then "democratic"
  else if strContains s "non" || strContains s "no-party" || strContains s "nonpartisan" then
    "nonpartisan"
  else "thirdParty"

/-- dedupe-donor-output.py lines 19-22: strip, lowercase, collapse inner
whitespace runs to single spaces; falsy input gives "". -/
def normalize_name (o : Option String) : String :=
  match o with
  | none => ""
  | some s => if s = "" then "" else joinWith " " (pySplitWs (strLower (strip s)))

/-- dedupe-donor-output.py lines 25-36: strip, remove leading dollar signs
and commas, parse as float; unparsable text is lowercased verbatim,
integral values print without a decimal part, others as Python `str`. -/
def normalize_donation (o : Option String) : String :=
  match o with
  | none => ""
  | some s0 =>
      if s0 = "" then ""
      else
        let s := filterChars (fun c => !(c == ','))
          (String.mk ((strip s0).toList.dropWhile (fun c => c == '$')))
        match pyFloat? s with
        | none => strLower s
        | some f => if f.den = 1 then toString f.num else strFloat f

/-- A known-partisan match key: 2 components (entity form) or 3 components
(person form). -/
abbrev MatchKey := List String

/-- dedupe-donor-output.py lines 39-49: entity name when present gives
(normalized entity, donation); else (normalized first, normalized last,
donation) when any part is non-empty; else no key. -/
def make_match_key_from_row (row : DRow) : Option MatchKey :=
  let entity := strip ((pyOr (rget row "entityName") (rget row "EntityName")).getD "")
  let donation := normalize_donation
    (pyOr (rget row "donationsToCampaign")
      (pyOr (rget row "donationsToCampaign")
        (pyOr (rget row "donation") (rget row "amount"))))
  if entity = "" then
    let first := strip ((pyOr (rget row "firstName") (rget row "FirstName")).getD "")
    let last := strip ((pyOr (rget row "lastName") (rget row "LastName")).getD "")
    if first = "" && last = "" && donation = "" then none
    else some [normalize_name (some first), normalize_name (some last), donation]
  else some [normalize_name (some entity), donation]

/-- dedupe-donor-output.py lines 52-64: the de-duplicated set of match keys
of all rows of republican.csv and democratic.csv (in that order). -/
def build_rep_dem_keys (repRows demRows : List DRow) : List MatchKey :=
  (repRows ++ demRows).foldl
    (fun ks r =>
      match make_match_key_from_row r with
      | some k => insertIfAbsent k ks
      | none => ks)
    []

/-- Does the row's match key land in the known-partisan key set? -/
def removableB (keys : List MatchKey) (r : DRow) : Bool :=
  match make_match_key_from_row r with
  | some k => if k ∈ keys then true else false
  | none => false

/-- dedupe-donor-output.py lines 84-91: the kept rows (in original order)
and the removed count for one file. -/
def dedupeRows (keys : List MatchKey) (rows : List DRow) : List DRow × Nat :=
  rows.foldl
    (fun acc r =>
      match make_match_key_from_row r with
      | some k => if k ∈ keys then (acc.1, acc.2 + 1) else (acc.1 ++ [r], acc.2)
      | none => (acc.1 ++ [r], acc.2))
    ([], 0)

/-- dedupe-donor-output.py lines 73-91: a file is rewritten only when its
stem categorizes as nonpartisan or thirdParty. -/
def processFile (keys : List MatchKey) (stem : String) (rows : List DRow) :
    Option (List DRow × Nat) :=
  if map_party_stem_to_category stem = "nonpartisan"
      ∨ map_party_stem_to_category stem = "thirdParty" then
    some (dedupeRows keys rows)
  else none

end DedupeOutput


section AssocLemmas

variable {α β : Type} [DecidableEq α]

theorem lookupA_updateAssoc_self (l : List (α × β)) (k : α) (v : β) :
    lookupA (updateAssoc l k v) k = some v := by
  induction l with
  | nil => simp [updateAssoc, lookupA]
  | cons hd tl ih =>
      obtain ⟨k', v'⟩ := hd
      by_cases h : k' = k <;> simp [updateAssoc, lookupA, h, ih]

theorem lookupA_updateAssoc_ne (l : List (α × β)) (k k' : α) (v : β) (h : k' ≠ k) :
    lookupA (updateAssoc l k v) k' = lookupA l k' := by
  induction l with
  | nil => simp [updateAssoc, lookupA, Ne.symm h]
  | cons hd tl ih =>
      obtain ⟨k₀, v₀⟩ := hd
      by_cases h₀ : k₀ = k
      · subst h₀
        simp [updateAssoc, lookupA, Ne.symm h]
      · simp [updateAssoc, lookupA, h₀, ih]

theorem updateAssoc_lookup_eq (l : List (α × β)) (k : α) (v : β)
    (h : lookupA l k = some v) : updateAssoc l k v = l := by
  induction l with
  | nil => simp [lookupA] at h
  | cons hd tl ih =>
      obtain ⟨k', v'⟩ := hd
      by_cases hk : k' = k
      · subst hk
        simp [lookupA] at h
        simp [updateAssoc, h]
      · simp [lookupA, hk] at h
        simp [updateAssoc, hk, ih h]

theorem lookupA_append_of_none (l₁ l₂ : List (α × β)) (k : α)
    (h : lookupA l₁ k = none) : lookupA (l₁ ++ l₂) k = lookupA l₂ k := by
  induction l₁ with
  | nil => simp
  | cons hd tl ih =>
      obtain ⟨k', v'⟩ := hd
      by_cases hk : k' = k
      · simp [lookupA, hk] at h
      · simp [lookupA, hk] at h ⊢
        exact ih h

theorem lookupA_append_of_some (l₁ l₂ : List (α × β)) (k : α) (v : β)
    (h : lookupA l₁ k = some v) : lookupA (l₁ ++ l₂) k = some v := by
  induction l₁ with
  | nil => simp [lookupA] at h
  | cons hd tl ih =>
      obtain ⟨k', v'⟩ := hd
      by_cases hk : k' = k
      · simp [lookupA, hk] at h ⊢
        exact h
      · simp [lookupA, hk] at h ⊢
        exact ih h

end AssocLemmas

theorem mem_insertIfAbsent {α : Type} [DecidableEq α] (x : α) (l : List α) :
    x ∈ insertIfAbsent x l := by
  by_cases h : x ∈ l <;> simp [insertIfAbsent, h]

theorem insertIfAbsent_of_mem {α : Type} [DecidableEq α] (x : α) (l : List α) (h : x ∈ l) :
    insertIfAbsent x l = l := by
  simp [insertIfAbsent, h]

theorem insertIfAbsent_length {α : Type} [DecidableEq α] (x : α) (l : List α) :
    (insertIfAbsent x l).length ≤ l.length + 1 := by
  by_cases h : x ∈ l <;> simp [insertIfAbsent, h]

theorem mem_insertIfAbsent_iff {α : Type} [DecidableEq α] (x y : α) (l : List α) :
    y ∈ insertIfAbsent x l ↔ y = x ∨ y ∈ l := by
  by_cases h : x ∈ l
  · simp [insertIfAbsent, h]
    intro hy
    subst hy
    exact h
  · simp [insertIfAbsent, h, or_comm]

namespace AggregateByParty

theorem pmUpdate_self (pm : PartyMap) (p : String) (k : GroupKey) (v : ℚ) :
    pmUpdate pm p k v p k = v := by
  simp [pmUpdate]

theorem pmUpdate_ne (pm : PartyMap) (p : String) (k : GroupKey) (v : ℚ)
    (p' : String) (k' : GroupKey) (h : ¬(p' = p ∧ k' = k)) :
    pmUpdate pm p k v p' k' = pm p' k' := by
  simp [pmUpdate, h]

/-- Helper: an observation with a resolvable identifier, non-empty party and
positive parsed amount updates exactly the cell `(party, key)`. -/
theorem recordObs_hit (e2g : List (String × GroupKey)) (pm : PartyMap)
    (eid p : String) (k : GroupKey) (t : Option String)
    (h : lookupA e2g eid = some k) (hp : p ≠ "") (ht : 0 < parse_float t) :
    recordObs e2g pm eid (some p) t = pmUpdate pm p k (pm p k + parse_float t) := by
  have hcond : ¬((some p : Option String) = none ∨ (some p : Option String) = some ""
      ∨ parse_float t ≤ 0) := by
    push_neg
    exact ⟨Option.some_ne_none p, by simpa using hp, ht⟩
  simp [recordObs, hcond, h]
  intro hbad
  rcases hbad with hb | hb
  · exact (hp hb).elim
  · exact ((not_le.mpr ht) hb).elim

/-- Helper: ingesting a row with an empty trimmed `eid` is a no-op. -/
theorem ingestRow_skip (st : IndexState) (r : Row) (h : getStr r.eid = "") :
    ingestRow st r = st := by
  simp [ingestRow, h]

/-- Helper: ingesting a row whose canonical key is unseen appends a fresh group. -/
theorem ingestRow_new (st : IndexState) (r : Row) (h : getStr r.eid ≠ "")
    (hk : lookupA st.groupInfo (canonKey r) = none) :
    ingestRow st r =
      { eidToGroup := updateAssoc st.eidToGroup (getStr r.eid) (canonKey r)
        groupInfo := st.groupInfo ++ [(canonKey r, freshGroup r (getStr r.eid))] } := by
  simp [ingestRow, h, hk]

/-- Helper: ingesting a row whose canonical key is already present only
remaps the identifier and adds it to the existing group's identifier set. -/
theorem ingestRow_seen (st : IndexState) (r : Row) (gi : GroupInfo)
    (h : getStr r.eid ≠ "") (hk : lookupA st.groupInfo (canonKey r) = some gi) :
    ingestRow st r =
      { eidToGroup := updateAssoc st.eidToGroup (getStr r.eid) (canonKey r)
        groupInfo := updateAssoc st.groupInfo (canonKey r)
          { gi with eids := insertIfAbsent (getStr r.eid) gi.eids } } := by
  simp [ingestRow, h, hk]

/-- Helper: ingesting the same row a second time changes nothing. -/
theorem ingestRow_idem (st : IndexState) (r : Row) :
    ingestRow (ingestRow st r) r = ingestRow st r := by
  by_cases he : getStr r.eid = ""
  · rw [ingestRow_skip st r he, ingestRow_skip st r he]
  · cases hk : lookupA st.groupInfo (canonKey r) with
    | none =>
        rw [ingestRow_new st r he hk]
        have hl : lookupA (st.groupInfo ++ [(canonKey r, freshGroup r (getStr r.eid))])
            (canonKey r) = some (freshGroup r (getStr r.eid)) := by
          rw [lookupA_append_of_none _ _ _ hk]
          simp [lookupA]
        rw [ingestRow_seen _ r _ he hl]
        have heids : insertIfAbsent (getStr r.eid) (freshGroup r (getStr r.eid)).eids
            = (freshGroup r (getStr r.eid)).eids := by
          apply insertIfAbsent_of_mem
          simp [freshGroup]
        simp only [heids]
        congr 1
        · exact updateAssoc_lookup_eq _ _ _ (lookupA_updateAssoc_self _ _ _)
        · exact updateAssoc_lookup_eq _ _ _ hl
    | some gi =>
        rw [ingestRow_seen st r gi he hk]
        have hl : lookupA (updateAssoc st.groupInfo (canonKey r)
              { gi with eids := insertIfAbsent (getStr r.eid) gi.eids }) (canonKey r)
            = some { gi with eids := insertIfAbsent (getStr r.eid) gi.eids } :=
          lookupA_updateAssoc_self _ _ _
        rw [ingestRow_seen _ r _ he hl]
        have heids : insertIfAbsent (getStr r.eid) (insertIfAbsent (getStr r.eid) gi.eids)
            = insertIfAbsent (getStr r.eid) gi.eids :=
          insertIfAbsent_of_mem _ _ (mem_insertIfAbsent _ _)
        simp only [heids]
        congr 1
        · exact updateAssoc_lookup_eq _ _ _ (lookupA_updateAssoc_self _ _ _)
        · exact updateAssoc_lookup_eq _ _ _ hl

/-- C1: for a donor group with two distinct lookup identifiers A and B both
resolving to the same group key, observations recorded for A and for B under
the same party are added to the same accumulator cell `(party, key)`; in
particular amounts "10" and "5" yield a single cell holding 15.0 when
starting from the empty accumulator. -/
theorem recordObs_same_cell (e2g : List (String × GroupKey)) (pm : PartyMap)
    (A B p : String) (k : GroupKey) (tA tB : Option String)
    (hAB : A ≠ B) (hA : lookupA e2g A = some k) (hB : lookupA e2g B = some k)
    (hp : p ≠ "") (hta : 0 < parse_float tA) (htb : 0 < parse_float tB) :
    recordObs e2g (recordObs e2g pm A (some p) tA) B (some p) tB p k
        = pm p k + parse_float tA + parse_float tB ∧
    recordObs e2g (recordObs e2g emptyPartyMap A (some p) (some "10")) B (some p) (some "5") p k
        = 15 := by
  have main : ∀ (pm0 : PartyMap) (t1 t2 : Option String),
      0 < parse_float t1 → 0 < parse_float t2 →
      recordObs e2g (recordObs e2g pm0 A (some p) t1) B (some p) t2 p k
        = pm0 p k + parse_float t1 + parse_float t2 := by
    intro pm0 t1 t2 h1 h2
    rw [recordObs_hit e2g pm0 A p k t1 hA hp h1,
        recordObs_hit e2g _ B p k t2 hB hp h2, pmUpdate_self, pmUpdate_self]
  refine ⟨main pm tA tB hta htb, ?_⟩
  rw [main emptyPartyMap (some "10") (some "5") (by decide) (by decide)]
  have h10 : parse_float (some "10") = 10 := by decide
  have h5 : parse_float (some "5") = 5 := by decide
  rw [h10, h5]
  norm_num [emptyPartyMap]

/-- C2: re-ingesting a row whose canonical key is already in the index leaves
the group's display fields and self-reported total untouched and grows its
identifier set by at most one element (the row's lookup identifier); and
ingesting the exact same row twice leaves the whole state equal to the state
after the first ingestion. -/
theorem ingest_reingest (st : IndexState) (r : Row) (gi : GroupInfo)
    (h : lookupA st.groupInfo (canonKey r) = some gi) :
    lookupA (ingestRow st r).groupInfo (canonKey r) =
      some { gi with eids := if getStr r.eid = "" then gi.eids
                             else insertIfAbsent (getStr r.eid) gi.eids } ∧
    (if getStr r.eid = "" then gi.eids
     else insertIfAbsent (getStr r.eid) gi.eids).length ≤ gi.eids.length + 1 ∧
    ingestRow (ingestRow st r) r = ingestRow st r := by
  refine ⟨?_, ?_, ingestRow_idem st r⟩
  · by_cases he : getStr r.eid = ""
    · rw [ingestRow_skip st r he]
      simp [he, h]
    · rw [ingestRow_seen st r gi he h]
      simp only [he, if_neg, if_false]
      exact lookupA_updateAssoc_self _ _ _
  · by_cases he : getStr r.eid = ""
    · simp [he]
    · simp only [he, if_false]
      exact insertIfAbsent_length _ _

/-- C3: a party observation whose amount text parses non-positively (or not
at all), or whose party label is empty or absent, or whose identifier does
not resolve to an ingested group, is silently discarded: the accumulator is
returned unchanged (and, the embedding being a total function, no error is
raised). -/
theorem recordObs_discard (e2g : List (String × GroupKey)) (pm : PartyMap)
    (eid : String) (party amtText : Option String)
    (h : parse_float amtText ≤ 0 ∨ party = none ∨ party = some ""
      ∨ lookupA e2g eid = none) :
    recordObs e2g pm eid party amtText = pm := by
  simp only [recordObs]
  rcases h with h | h | h | h
  · rw [if_pos (Or.inr (Or.inr h))]
  · rw [if_pos (Or.inl h)]
  · rw [if_pos (Or.inr (Or.inl h))]
  · by_cases hc : party = none ∨ party = some "" ∨ parse_float amtText ≤ 0
    · rw [if_pos hc]
    · rw [if_neg hc, h]

/-- Witness for C1 at a concrete accumulator state. -/
theorem recordObs_same_cell_witness :
    recordObs [("1", (("Acme PAC", "", "", "", "", "") : GroupKey)),
               ("2", (("Acme PAC", "", "", "", "", "") : GroupKey))]
        (recordObs [("1", (("Acme PAC", "", "", "", "", "") : GroupKey)),
                    ("2", (("Acme PAC", "", "", "", "", "") : GroupKey))]
          emptyPartyMap "1" (some "Republican Party") (some "10"))
        "2" (some "Republican Party") (some "5")
        "Republican Party" (("Acme PAC", "", "", "", "", "") : GroupKey)
      = emptyPartyMap "Republican Party" (("Acme PAC", "", "", "", "", "") : GroupKey)
          + parse_float (some "10") + parse_float (some "5") ∧
    recordObs [("1", (("Acme PAC", "", "", "", "", "") : GroupKey)),
               ("2", (("Acme PAC", "", "", "", "", "") : GroupKey))]
        (recordObs [("1", (("Acme PAC", "", "", "", "", "") : GroupKey)),
                    ("2", (("Acme PAC", "", "", "", "", "") : GroupKey))]
          emptyPartyMap "1" (some "Republican Party") (some "10"))
        "2" (some "Republican Party") (some "5")
        "Republican Party" (("Acme PAC", "", "", "", "", "") : GroupKey) = 15 :=
  recordObs_same_cell _ emptyPartyMap "1" "2" "Republican Party" _ (some "10") (some "5")
    (by decide) (by decide) (by decide) (by decide) (by decide) (by decide)

/-- Witness for C2 at a concrete index state. -/
theorem ingest_reingest_witness :
    lookupA (ingestRow
        (⟨[("1", (("Acme PAC", "", "", "", "", "") : GroupKey))],
          [((("Acme PAC", "", "", "", "", "") : GroupKey),
            ⟨"Acme PAC", "", "", "", "", "", (100 : ℚ), ["1"]⟩)]⟩ : IndexState)
        (⟨some "2", some "Acme PAC", none, none, none, none, none, some "55"⟩ : Row)).groupInfo
      (canonKey (⟨some "2", some "Acme PAC", none, none, none, none, none, some "55"⟩ : Row)) =
      some ⟨"Acme PAC", "", "", "", "", "", (100 : ℚ),
        if getStr (some "2") = "" then ["1"] else insertIfAbsent (getStr (some "2")) ["1"]⟩ ∧
    (if getStr (some "2") = "" then ["1"] else insertIfAbsent (getStr (some "2")) ["1"]).length
      ≤ (["1"] : List String).length + 1 ∧
    ingestRow (ingestRow
        (⟨[("1", (("Acme PAC", "", "", "", "", "") : GroupKey))],
          [((("Acme PAC", "", "", "", "", "") : GroupKey),
            ⟨"Acme PAC", "", "", "", "", "", (100 : ℚ), ["1"]⟩)]⟩ : IndexState)
        (⟨some "2", some "Acme PAC", none, none, none, none, none, some "55"⟩ : Row))
      (⟨some "2", some "Acme PAC", none, none, none, none, none, some "55"⟩ : Row)
      = ingestRow
        (⟨[("1", (("Acme PAC", "", "", "", "", "") : GroupKey))],
          [((("Acme PAC", "", "", "", "", "") : GroupKey),
            ⟨"Acme PAC", "", "", "", "", "", (100 : ℚ), ["1"]⟩)]⟩ : IndexState)
        (⟨some "2", some "Acme PAC", none, none, none, none, none, some "55"⟩ : Row) :=
  ingest_reingest
    (⟨[("1", (("Acme PAC", "", "", "", "", "") : GroupKey))],
      [((("Acme PAC", "", "", "", "", "") : GroupKey),
        ⟨"Acme PAC", "", "", "", "", "", (100 : ℚ), ["1"]⟩)]⟩ : IndexState)
    (⟨some "2", some "Acme PAC", none, none, none, none, none, some "55"⟩ : Row)
    (⟨"Acme PAC", "", "", "", "", "", (100 : ℚ), ["1"]⟩ : GroupInfo)
    (by decide)

/-- Witness for C3: an observation with an empty party label is discarded. -/
theorem recordObs_discard_witness :
    recordObs [] emptyPartyMap "42" (some "") (some "10") = emptyPartyMap :=
  recordObs_discard [] emptyPartyMap "42" (some "") (some "10") (Or.inr (Or.inr (Or.inl rfl)))

end AggregateByParty

theorem digitChar_ne_dot (n : Nat) : Nat.digitChar n ≠ '.' := by
  by_cases h : n < 16
  · interval_cases n <;> decide
  · have hne : ∀ m : Nat, m < 16 → ¬n = m := by omega
    simp only [Nat.digitChar, hne 0 (by norm_num), hne 1 (by norm_num), hne 2 (by norm_num),
      hne 3 (by norm_num), hne 4 (by norm_num), hne 5 (by norm_num), hne 6 (by norm_num),
      hne 7 (by norm_num), hne 8 (by norm_num), hne 9 (by norm_num), hne 10 (by norm_num),
      hne 11 (by norm_num), hne 12 (by norm_num), hne 13 (by norm_num), hne 14 (by norm_num),
      hne 15 (by norm_num), if_false]
    decide

theorem toDigitsCore_ne_dot (b : Nat) (fuel : Nat) :
    ∀ (n : Nat) (ds : List Char), (∀ c ∈ ds, c ≠ '.') →
      ∀ c ∈ Nat.toDigitsCore b fuel n ds, c ≠ '.' := by
  induction fuel with
  | zero =>
      intro n ds hds c hc
      simp only [Nat.toDigitsCore] at hc
      exact hds c hc
  | succ fuel ih =>
      intro n ds hds c hc
      simp only [Nat.toDigitsCore] at hc
      have hcons : ∀ x ∈ Nat.digitChar (n % b) :: ds, x ≠ '.' := by
        intro x hx
        rcases List.mem_cons.mp hx with h1 | h1
        · exact h1 ▸ digitChar_ne_dot _
        · exact hds x h1
      by_cases h : n / b = 0
      · rw [if_pos h] at hc
        exact hcons c hc
      · rw [if_neg h] at hc
        exact ih (n / b) (Nat.digitChar (n % b) :: ds) hcons c hc

theorem toString_nat_ne_dot (n : Nat) : ∀ c ∈ (toString n).toList, c ≠ '.' := by
  intro c hc
  exact toDigitsCore_ne_dot 10 (n + 1) n [] (by simp) c hc

theorem toString_int_ne_dot (i : ℤ) : ∀ c ∈ (toString i).toList, c ≠ '.' := by
  cases i with
  | ofNat m =>
      intro c hc
      exact toString_nat_ne_dot m c hc
  | negSucc m =>
      intro c hc
      have h2 : c ∈ '-' :: Nat.toDigitsCore 10 (m + 2) (m + 1) [] := hc
      rcases List.mem_cons.mp h2 with h1 | h1
      · exact h1 ▸ (by decide)
      · exact toDigitsCore_ne_dot 10 (m + 2) (m + 1) [] (by simp) c h1

theorem padTwo_length : ∀ m, m < 100 → (padTwo m).length = 2 := by decide

theorem padTwo_ne_dot : ∀ m, m < 100 → ∀ c ∈ (padTwo m).toList, c ≠ '.' := by decide

theorem mem_toList_append {s t : String} {c : Char} (h : c ∈ (s ++ t).toList) :
    c ∈ s.toList ∨ c ∈ t.toList := by
  have : c ∈ s.toList ++ t.toList := h
  exact List.mem_append.mp this

namespace AggregateByParty

/-- C4: an emitted dollar value that is mathematically an integer is printed
as its integer decimal representation (no decimal point anywhere in the
output); any other value is printed as a dot-free prefix (sign and integer
part), a dot, and exactly two fractional digits; in particular 15.0 prints
"15", 15.5 prints "15.50" and -0.0 prints "0". -/
theorem formatAmount_correct :
    (∀ v : ℚ, v.den = 1 → formatAmount v = toString v.num ∧
        ∀ c ∈ (formatAmount v).toList, c ≠ '.') ∧
    (∀ v : ℚ, v.den ≠ 1 →
        formatAmount v =
          (if v < 0 then "-" else "") ++
            toString ((rheDiv (v.num.natAbs * 100) v.den).toNat / 100) ++ "." ++
            padTwo ((rheDiv (v.num.natAbs * 100) v.den).toNat % 100) ∧
        (∀ c ∈ ((if v < 0 then "-" else "") ++
            toString ((rheDiv (v.num.natAbs * 100) v.den).toNat / 100)).toList, c ≠ '.') ∧
        (padTwo ((rheDiv (v.num.natAbs * 100) v.den).toNat % 100)).length = 2) ∧
    formatAmount 15 = "15" ∧ formatAmount (31 / 2) = "15.50" ∧ formatAmount (-0) = "0" := by
  refine ⟨?_, ?_, by decide, ?_, by decide⟩
  · intro v h
    have he : formatAmount v = toString v.num := by simp [formatAmount, h]
    refine ⟨he, ?_⟩
    rw [he]
    exact toString_int_ne_dot v.num
  · intro v h
    refine ⟨by simp [formatAmount, formatTwoDecimals, h], ?_, ?_⟩
    · intro c hc
      rcases mem_toList_append hc with h1 | h1
      · by_cases hv : v < 0
        · rw [if_pos hv] at h1
          have : c = '-' := by simpa using h1
          rw [this]
          decide
        · rw [if_neg hv] at h1
          simp at h1
      · exact toString_nat_ne_dot _ c h1
    · exact padTwo_length _ (Nat.mod_lt _ (by omega))
  · have h : (31 / 2 : ℚ) = mkRat 31 2 := by
      rw [Rat.mkRat_eq_div]
      norm_num
    rw [h]
    decide

/-- Witness for C4 at the concrete values 15 and 15.5. -/
theorem formatAmount_correct_witness :
    (formatAmount 15 = toString (15 : ℚ).num ∧
      ∀ c ∈ (formatAmount 15).toList, c ≠ '.') ∧
    (formatAmount (mkRat 31 2) =
        (if (mkRat 31 2 : ℚ) < 0 then "-" else "") ++
          toString ((rheDiv ((mkRat 31 2 : ℚ).num.natAbs * 100) (mkRat 31 2 : ℚ).den).toNat / 100)
          ++ "." ++ padTwo ((rheDiv ((mkRat 31 2 : ℚ).num.natAbs * 100) (mkRat 31 2 : ℚ).den).toNat % 100) ∧
      (∀ c ∈ ((if (mkRat 31 2 : ℚ) < 0 then "-" else "") ++
          toString ((rheDiv ((mkRat 31 2 : ℚ).num.natAbs * 100) (mkRat 31 2 : ℚ).den).toNat / 100)).toList,
          c ≠ '.') ∧
      (padTwo ((rheDiv ((mkRat 31 2 : ℚ).num.natAbs * 100) (mkRat 31 2 : ℚ).den).toNat % 100)).length = 2) :=
  ⟨formatAmount_correct.1 15 (by decide), formatAmount_correct.2.1 (mkRat 31 2) (by decide)⟩

end AggregateByParty

namespace ComputeSplits

/-- C7: `map_party_stem_to_category` decides by case-insensitive substring
rules in fixed priority order — "republic" wins, then "democ", then
"non"/"no-party"/"nonpartisan", default thirdParty — with the spec's four
concrete stems mapped accordingly. -/
theorem categorize_rules :
    (∀ s : String, strContains (strLower s) "republic" = true →
        map_party_stem_to_category s = "republican") ∧
    (∀ s : String, strContains (strLower s) "republic" = false →
        strContains (strLower s) "democ" = true →
        map_party_stem_to_category s = "democratic") ∧
    (∀ s : String, strContains (strLower s) "republic" = false →
        strContains (strLower s) "democ" = false →
        (strContains (strLower s) "non" || strContains (strLower s) "no-party"
          || strContains (strLower s) "nonpartisan") = true →
        map_party_stem_to_category s = "nonpartisan") ∧
    (∀ s : String, strContains (strLower s) "republic" = false →
        strContains (strLower s) "democ" = false →
        (strContains (strLower s) "non" || strContains (strLower s) "no-party"
          || strContains (strLower s) "nonpartisan") = false →
        map_party_stem_to_category s = "thirdParty") ∧
    map_party_stem_to_category "republican" = "republican" ∧
    map_party_stem_to_category "GOP-republican-central" = "republican" ∧
    map_party_stem_to_category "nonpartisan-judges" = "nonpartisan" ∧
    map_party_stem_to_category "libertarian" = "thirdParty" := by
  refine ⟨?_, ?_, ?_, ?_, by decide, by decide, by decide, by decide⟩
  · intro s h
    simp [map_party_stem_to_category, h]
  · intro s h1 h2
    simp [map_party_stem_to_category, h1, h2]
  · intro s h1 h2 h3
    simp [map_party_stem_to_category, h1, h2, h3]
  · intro s h1 h2 h3
    simp only [Bool.or_eq_false_iff] at h3
    simp [map_party_stem_to_category, h1, h2, h3.1.1, h3.1.2, h3.2]

/-- Witness for C7 on concrete stems per rule. -/
theorem categorize_rules_witness :
    map_party_stem_to_category "x-republic-y" = "republican" ∧
    map_party_stem_to_category "Democratic" = "democratic" ∧
    map_party_stem_to_category "no-party" = "nonpartisan" ∧
    map_party_stem_to_category "green" = "thirdParty" :=
  ⟨categorize_rules.1 "x-republic-y" (by decide),
   categorize_rules.2.1 "Democratic" (by decide) (by decide),
   categorize_rules.2.2.1 "no-party" (by decide) (by decide) (by decide),
   categorize_rules.2.2.2.1 "green" (by decide) (by decide) (by decide)⟩

/-- C8: category sums start from 0.0 for all four categories; a non-positive
grand total forces all four percentages to exactly 0.0 with no division
performed, and a positive total gives each category 100·sum/total; the
republican=$100 example yields (100, 0, 0, 0). -/
theorem computePercents_safe :
    accumSums [] = emptySums ∧
    (∀ files : List (String × ℚ), sumsTotal (accumSums files) ≤ 0 →
        computePercents (accumSums files) = ⟨0, 0, 0, 0⟩) ∧
    (∀ files : List (String × ℚ), 0 < sumsTotal (accumSums files) →
        computePercents (accumSums files) =
          ⟨(accumSums files).republican / sumsTotal (accumSums files) * 100,
           (accumSums files).democratic / sumsTotal (accumSums files) * 100,
           (accumSums files).thirdParty / sumsTotal (accumSums files) * 100,
           (accumSums files).nonpartisan / sumsTotal (accumSums files) * 100⟩) ∧
    computePercents (accumSums [("republican", 100)]) = ⟨100, 0, 0, 0⟩ := by
  refine ⟨rfl, ?_, ?_, ?_⟩
  · intro files h
    simp [computePercents, h]
  · intro files h
    simp [computePercents, not_le.mpr h]
  · have h1 : accumSums [("republican", 100)] = ⟨100, 0, 0, 0⟩ := by
      have hc : map_party_stem_to_category "republican" = "republican" := by decide
      show addCat emptySums (map_party_stem_to_category "republican") 100 = _
      rw [hc]
      norm_num [addCat, emptySums]
    rw [h1]
    have ht : sumsTotal ⟨100, 0, 0, 0⟩ = 100 := by norm_num [sumsTotal]
    rw [computePercents, ht]
    norm_num

/-- Witness for C8: the all-zero candidate reports all-zero percentages. -/
theorem computePercents_safe_witness :
    computePercents (accumSums [("republican", 0), ("democratic", 0)]) = ⟨0, 0, 0, 0⟩ :=
  computePercents_safe.2.1 [("republican", 0), ("democratic", 0)]
    (by norm_num [accumSums, addCat, emptySums, sumsTotal,
      show map_party_stem_to_category "republican" = "republican" from by decide,
      show map_party_stem_to_category "democratic" = "democratic" from by decide])

end ComputeSplits

namespace ComputeSplits

/-- C9 counterexample: the claim says the FIRST strip keeps the apostrophe;
on the value 1'2 the code's first strip is "12" while the spec-described
first strip keeps the apostrophe, so they differ. -/
theorem sppFirstClean_differs_from_spec :
    sppFirstClean ("1" ++ String.singleton (Char.ofNat 39) ++ "2") = "12" ∧
    specFirstClean ("1" ++ String.singleton (Char.ofNat 39) ++ "2")
      = "1" ++ String.singleton (Char.ofNat 39) ++ "2" ∧
    sppFirstClean ("1" ++ String.singleton (Char.ofNat 39) ++ "2")
      ≠ specFirstClean ("1" ++ String.singleton (Char.ofNat 39) ++ "2") := by
  refine ⟨by decide, by decide, by decide⟩

/-- C9 (amended): the per-value parse first strips to digits/dot/minus and
attempts numeric conversion (an empty strip contributing 0.0); only if that
first parse fails does it fall back to the digits/dot/minus/apostrophe
strip; if both fail the value contributes 0.0, and every value is folded in
additively so the rest of the file is still processed. -/
theorem parsePreferredValue_stages :
    (∀ (v : String) (q : ℚ), sppFirstClean v ≠ "" → pyFloat? (sppFirstClean v) = some q →
        parsePreferredValue v = q) ∧
    (∀ v : String, sppFirstClean v = "" → parsePreferredValue v = 0) ∧
    (∀ (v : String) (q : ℚ), sppFirstClean v ≠ "" → pyFloat? (sppFirstClean v) = none →
        sppFallbackClean v ≠ "" → pyFloat? (sppFallbackClean v) = some q →
        parsePreferredValue v = q) ∧
    (∀ v : String, pyFloat? (sppFirstClean v) = none → pyFloat? (sppFallbackClean v) = none →
        parsePreferredValue v = 0) ∧
    (∀ (vals : List (Option String)) (o : Option String),
        sumPreferredValues (vals ++ [o]) =
          sumPreferredValues vals +
            (if strip (o.getD "") = "" then 0 else parsePreferredValue (strip (o.getD "")))) := by
  refine ⟨?_, ?_, ?_, ?_, ?_⟩
  · intro v q h1 h2
    simp [parsePreferredValue, h1, h2]
  · intro v h
    simp [parsePreferredValue, h]
  · intro v q h1 h2 h3 h4
    simp [parsePreferredValue, h1, h2, h3, h4]
  · intro v h1 h2
    by_cases he : sppFirstClean v = ""
    · simp [parsePreferredValue, he]
    · by_cases hf : sppFallbackClean v = ""
      · simp [parsePreferredValue, he, h1, hf]
      · simp [parsePreferredValue, he, h1, hf, h2]
  · intro vals o
    by_cases h : strip (o.getD "") = ""
    · simp [sumPreferredValues, List.foldl_append, h]
    · simp [sumPreferredValues, List.foldl_append, h]

/-- Witness for C9 (amended) at concrete values. -/
theorem parsePreferredValue_stages_witness :
    parsePreferredValue "2,50" = 250 ∧ parsePreferredValue "--" = 0 :=
  ⟨parsePreferredValue_stages.1 "2,50" 250 (by decide) (by decide),
   parsePreferredValue_stages.2.2.2.1 "--" (by decide) (by decide)⟩

end ComputeSplits

namespace CheckDup

/-- C5: the duplicate-detector match key keeps exactly the non-"amount"
fields (case-insensitively) paired with trimmed values — so rows equal on
every non-amount field share a key, no amount-named field ever appears in a
key, and every other match field does; and the republican/nonpartisan
two-file scenario with identical identity fields but different amounts
yields exactly one DuplicateRecord with the stems sorted alphabetically. -/
theorem find_duplicates_correct :
    (∀ (fields : List String) (r1 r2 : DRow),
        (∀ f : String, strLower f ≠ "amount" →
          strip ((rget r1 f).getD "") = strip ((rget r2 f).getD "")) →
        make_match_key r1 fields = make_match_key r2 fields) ∧
    (∀ (fields : List String) (row : DRow) (f : String), strLower f = "amount" →
        ∀ x : String, (f, x) ∉ make_match_key row fields) ∧
    (∀ (fields : List String) (row : DRow) (f : String), f ∈ fields →
        strLower f ≠ "amount" →
        (f, strip ((rget row f).getD "")) ∈ make_match_key row fields) ∧
    find_duplicates
      [("nonpartisan.csv",
        [[("entityName", ""), ("firstName", "Jane"), ("lastName", "Doe"),
          ("amount", "100"), ("donationsToCampaign", "250")]]),
       ("republican.csv",
        [[("entityName", ""), ("firstName", "Jane"), ("lastName", "Doe"),
          ("amount", "40"), ("donationsToCampaign", "250")]])]
      = [("Jane Doe", "$250", "nonpartisan/republican")] := by
  refine ⟨?_, ?_, ?_, by decide⟩
  · intro fields r1 r2 h
    unfold make_match_key
    apply List.map_congr_left
    intro f hf
    have hp : strLower f ≠ "amount" := by simpa using List.of_mem_filter hf
    rw [h f hp]
  · intro fields row f hf x hmem
    unfold make_match_key at hmem
    rcases List.mem_map.mp hmem with ⟨f', hf', heq⟩
    have hff : f' = f := congrArg Prod.fst heq
    have hp : strLower f' ≠ "amount" := by simpa using List.of_mem_filter hf'
    exact hp (hff ▸ hf)
  · intro fields row f hmem hne
    unfold make_match_key
    exact List.mem_map_of_mem _ (List.mem_filter.mpr ⟨hmem, by simpa using hne⟩)

/-- Witness for C5: amount-insensitivity, exclusion and inclusion at a
concrete two-field row. -/
theorem find_duplicates_correct_witness :
    make_match_key [("name", "Jane"), ("amount", "100")] ["name", "amount"]
      = make_match_key [("name", "Jane"), ("amount", "40")] ["name", "amount"] ∧
    ("amount", "100") ∉ make_match_key [("name", "Jane"), ("amount", "100")] ["name", "amount"] ∧
    ("name", "Jane") ∈ make_match_key [("name", "Jane"), ("amount", "100")] ["name", "amount"] :=
  ⟨find_duplicates_correct.1 ["name", "amount"]
      [("name", "Jane"), ("amount", "100")] [("name", "Jane"), ("amount", "40")]
      (by
        intro f hf
        by_cases h1 : ("name" : String) = f
        · subst h1
          rfl
        · by_cases h2 : ("amount" : String) = f
          · exact absurd (by rw [← h2]; decide) hf
          · simp [rget, lookupA, h1, h2]),
   find_duplicates_correct.2.1 ["name", "amount"]
      [("name", "Jane"), ("amount", "100")] "amount" (by decide) "100",
   find_duplicates_correct.2.2.1 ["name", "amount"]
      [("name", "Jane"), ("amount", "100")] "name" (by decide) (by decide)⟩

end CheckDup

namespace DedupeOutput

/-- Helper: the dedupe fold keeps exactly the non-removable rows in order and
counts the removable ones, for any starting accumulator. -/
theorem dedupeRows_go (keys : List MatchKey) :
    ∀ (rows : List DRow) (acc : List DRow) (n : Nat),
      rows.foldl
        (fun acc r =>
          match make_match_key_from_row r with
          | some k => if k ∈ keys then (acc.1, acc.2 + 1) else (acc.1 ++ [r], acc.2)
          | none => (acc.1 ++ [r], acc.2)) (acc, n)
      = (acc ++ rows.filter (fun r => !removableB keys r),
         n + (rows.filter (fun r => removableB keys r)).length) := by
  intro rows
  induction rows with
  | nil =>
      intro acc n
      simp
  | cons r rs ih =>
      intro acc n
      simp only [List.foldl_cons, List.filter_cons]
      cases hk : make_match_key_from_row r with
      | none =>
          have hr : removableB keys r = false := by simp [removableB, hk]
          simp [hk, hr, ih]
      | some k =>
          by_cases hm : k ∈ keys
          · have hr : removableB keys r = true := by simp [removableB, hk, hm]
            simp only [hk, hm, if_pos, hr, Bool.not_true, ih]
            simp [Nat.add_comm, Nat.add_assoc, Nat.add_left_comm]
          · have hr : removableB keys r = false := by simp [removableB, hk, hm]
            simp [hk, hm, hr, ih]

/-- Helper: membership in the fold that accumulates the match keys of a row
list into a key set. -/
theorem buildKeys_mem (l : List DRow) :
    ∀ (ks : List MatchKey) (k : MatchKey),
      (k ∈ l.foldl
        (fun ks r =>
          match make_match_key_from_row r with
          | some k0 => insertIfAbsent k0 ks
          | none => ks) ks) ↔
        (k ∈ ks ∨ ∃ r ∈ l, make_match_key_from_row r = some k) := by
  induction l with
  | nil =>
      intro ks k
      simp
  | cons r rs ih =>
      intro ks k
      simp only [List.foldl_cons]
      cases hr : make_match_key_from_row r with
      | none =>
          rw [ih]
          simp [hr]
      | some k0 =>
          rw [ih, mem_insertIfAbsent_iff]
          constructor
          · rintro (⟨h | h⟩ | ⟨r', hr', hk'⟩)
            · exact Or.inr ⟨r, List.mem_cons_self r rs, by rw [hr, h]⟩
            · exact Or.inl h
            · exact Or.inr ⟨r', List.mem_cons_of_mem r hr', hk'⟩
          · rintro (h | ⟨r', hr', hk'⟩)
            · exact Or.inl (Or.inr h)
            · rcases List.mem_cons.mp hr' with h1 | h1
              · subst h1
                rw [hr] at hk'
                exact Or.inl (Or.inl (Option.some_injective _ hk').symm)
              · exact Or.inr ⟨r', h1, hk'⟩

/-- C6: for a candidate's computed republican/democratic files, the
known-partisan key set contains exactly the match keys of their rows; the
rewrite of a nonpartisan/thirdParty file removes exactly the rows whose
match key is in that set, keeps all others in their original order, and
reports the removed count; only nonpartisan/thirdParty files are touched. -/
theorem dedupe_known_partisan :
    (∀ (keys : List MatchKey) (rows : List DRow),
        (dedupeRows keys rows).1 = rows.filter (fun r => !removableB keys r) ∧
        (dedupeRows keys rows).2 = (rows.filter (fun r => removableB keys r)).length) ∧
    (∀ (rep dem : List DRow) (k : MatchKey),
        k ∈ build_rep_dem_keys rep dem ↔
          ∃ r ∈ rep ++ dem, make_match_key_from_row r = some k) ∧
    (∀ (keys : List MatchKey) (stem : String) (rows : List DRow),
        processFile keys stem rows =
          if map_party_stem_to_category stem = "nonpartisan"
              ∨ map_party_stem_to_category stem = "thirdParty" then
            some (dedupeRows keys rows)
          else none) := by
  refine ⟨?_, ?_, fun _ _ _ => rfl⟩
  · intro keys rows
    unfold dedupeRows
    rw [dedupeRows_go keys rows [] 0]
    simp
  · intro rep dem k
    unfold build_rep_dem_keys
    rw [buildKeys_mem]
    simp

/-- Witness for C6 at a concrete key set and row list. -/
theorem dedupe_known_partisan_witness :
    (dedupeRows [["acme pac", "250"]]
        [[("entityName", "Acme PAC"), ("donationsToCampaign", "250")],
         [("entityName", "Other Co"), ("donationsToCampaign", "9")]]).1
      = [[("entityName", "Acme PAC"), ("donationsToCampaign", "250")],
         [("entityName", "Other Co"), ("donationsToCampaign", "9")]].filter
          (fun r => !removableB [["acme pac", "250"]] r) ∧
    (dedupeRows [["acme pac", "250"]]
        [[("entityName", "Acme PAC"), ("donationsToCampaign", "250")],
         [("entityName", "Other Co"), ("donationsToCampaign", "9")]]).2
      = ([[("entityName", "Acme PAC"), ("donationsToCampaign", "250")],
          [("entityName", "Other Co"), ("donationsToCampaign", "9")]].filter
          (fun r => removableB [["acme pac", "250"]] r)).length :=
  dedupe_known_partisan.1 [["acme pac", "250"]]
    [[("entityName", "Acme PAC"), ("donationsToCampaign", "250")],
     [("entityName", "Other Co"), ("donationsToCampaign", "9")]]

end DedupeOutput

namespace AggregateByParty

/-- C10: when one lookup identifier appears in two rows (of one file) that
canonicalize to different keys, after ingesting both the identifier maps to
the later row's key (last writer wins) while the earlier group still holds
the identifier in its set; a party observation for that identifier is
credited to the later group's cell only, leaving the earlier group's cell
unchanged. -/
theorem eid_last_writer_wins (r1 r2 : Row) (p : String) (t : Option String)
    (pm : PartyMap)
    (he : getStr r2.eid = getStr r1.eid) (hne : getStr r1.eid ≠ "")
    (hk : canonKey r1 ≠ canonKey r2) (hp : p ≠ "") (ht : 0 < parse_float t) :
    lookupA (ingestRow (ingestRow emptyIndex r1) r2).eidToGroup (getStr r1.eid)
        = some (canonKey r2) ∧
    (∃ gi, lookupA (ingestRow (ingestRow emptyIndex r1) r2).groupInfo (canonKey r1)
        = some gi ∧ getStr r1.eid ∈ gi.eids) ∧
    recordObs (ingestRow (ingestRow emptyIndex r1) r2).eidToGroup pm
        (getStr r1.eid) (some p) t p (canonKey r2)
      = pm p (canonKey r2) + parse_float t ∧
    recordObs (ingestRow (ingestRow emptyIndex r1) r2).eidToGroup pm
        (getStr r1.eid) (some p) t p (canonKey r1)
      = pm p (canonKey r1) := by
  have h1 : ingestRow emptyIndex r1 =
      { eidToGroup := [(getStr r1.eid, canonKey r1)]
        groupInfo := [(canonKey r1, freshGroup r1 (getStr r1.eid))] } := by
    rw [ingestRow_new emptyIndex r1 hne (by simp [emptyIndex, lookupA])]
    simp [emptyIndex, updateAssoc]
  have hne2 : getStr r2.eid ≠ "" := by
    rw [he]
    exact hne
  have hlk : lookupA [(canonKey r1, freshGroup r1 (getStr r1.eid))] (canonKey r2) = none := by
    simp [lookupA, hk]
  have h2 : ingestRow (ingestRow emptyIndex r1) r2 =
      { eidToGroup := [(getStr r1.eid, canonKey r2)]
        groupInfo := [(canonKey r1, freshGroup r1 (getStr r1.eid)),
                      (canonKey r2, freshGroup r2 (getStr r2.eid))] } := by
    rw [h1, ingestRow_new _ r2 hne2 hlk]
    simp [updateAssoc, he]
  rw [h2]
  have hA : lookupA [(getStr r1.eid, canonKey r2)] (getStr r1.eid) = some (canonKey r2) := by
    simp [lookupA]
  refine ⟨hA,
    ⟨freshGroup r1 (getStr r1.eid), by simp [lookupA], by simp [freshGroup]⟩, ?_, ?_⟩
  · rw [recordObs_hit _ pm _ p _ t hA hp ht, pmUpdate_self]
  · rw [recordObs_hit _ pm _ p _ t hA hp ht,
      pmUpdate_ne _ _ _ _ _ _ (fun hcon => hk hcon.2)]

/-- Witness for C10: identifier "7" appears under two different entity names. -/
theorem eid_last_writer_wins_witness :
    lookupA (ingestRow (ingestRow emptyIndex
        (⟨some "7", some "Acme PAC", none, none, none, none, none, none⟩ : Row))
        (⟨some "7", some "Beta LLC", none, none, none, none, none, none⟩ : Row)).eidToGroup
      (getStr (some "7"))
      = some (canonKey (⟨some "7", some "Beta LLC", none, none, none, none, none, none⟩ : Row)) ∧
    (∃ gi, lookupA (ingestRow (ingestRow emptyIndex
        (⟨some "7", some "Acme PAC", none, none, none, none, none, none⟩ : Row))
        (⟨some "7", some "Beta LLC", none, none, none, none, none, none⟩ : Row)).groupInfo
      (canonKey (⟨some "7", some "Acme PAC", none, none, none, none, none, none⟩ : Row))
      = some gi ∧ getStr (some "7") ∈ gi.eids) ∧
    recordObs (ingestRow (ingestRow emptyIndex
        (⟨some "7", some "Acme PAC", none, none, none, none, none, none⟩ : Row))
        (⟨some "7", some "Beta LLC", none, none, none, none, none, none⟩ : Row)).eidToGroup
      emptyPartyMap (getStr (some "7")) (some "Republican Party") (some "10")
      "Republican Party"
      (canonKey (⟨some "7", some "Beta LLC", none, none, none, none, none, none⟩ : Row))
      = emptyPartyMap "Republican Party"
          (canonKey (⟨some "7", some "Beta LLC", none, none, none, none, none, none⟩ : Row))
        + parse_float (some "10") ∧
    recordObs (ingestRow (ingestRow emptyIndex
        (⟨some "7", some "Acme PAC", none, none, none, none, none, none⟩ : Row))
        (⟨some "7", some "Beta LLC", none, none, none, none, none, none⟩ : Row)).eidToGroup
      emptyPartyMap (getStr (some "7")) (some "Republican Party") (some "10")
      "Republican Party"
      (canonKey (⟨some "7", some "Acme PAC", none, none, none, none, none, none⟩ : Row))
      = emptyPartyMap "Republican Party"
          (canonKey (⟨some "7", some "Acme PAC", none, none, none, none, none, none⟩ : Row)) :=
  eid_last_writer_wins
    (⟨some "7", some "Acme PAC", none, none, none, none, none, none⟩ : Row)
    (⟨some "7", some "Beta LLC", none, none, none, none, none, none⟩ : Row)
    "Republican Party" (some "10") emptyPartyMap
    (by decide) (by decide) (by decide) (by decide) (by decide)

end AggregateByParty
